import Mathlib

/-!
Verification of the negotiation and stream-processing layer of the
munin-acceptance Telnet server.

The development shallowly embeds three components of the source:

* `Client` — the client session state machine of `src/client.cpp`
  (`client::impl`): states Init/Setup/Main/Dead, the `enter_state`
  dispatcher, the per-state event handlers, the Setup byte buffer
  (`discarded_data_`) and the recorded window size.
* `Conn` — the terminal-type bookkeeping and the keepalive loop of
  `src/connection.cpp` (`connection::impl`), plus the constructor
  action trace (negotiator installation and activation order).
* `App` — the pending-connection bookkeeping of `src/application.cpp`
  (`application::impl`).

Side effects of the C++ (scheduling an asynchronous read, repainting,
invoking a stored continuation) are modelled as explicit effect lists
returned alongside the successor state, so that temporal claims about
what a callback triggers become statements about those lists.
-/

namespace Client

/-- The enum `client::impl::connection_state` of src/client.cpp. -/
inductive ConnState
  | init
  | setup
  | main
  | dead
deriving DecidableEq, Repr

/-- The mutable data of `client::impl` that the claims concern:
the current `connection_state_`, the Setup buffer `discarded_data_`,
the recorded `window_width_` / `window_height_` (defaulted 80 and 24),
and the canvas of the currently live `main_state`, if any
(`main_state::canvas_` is constructed as 80 by 24 and resized on
window-size events while in Main; it is `none` whenever the current
state object is not a `main_state`). -/
structure Impl where
  connState : ConnState
  discarded : List Nat
  winW : Nat
  winH : Nat
  canvas : Option (Nat × Nat)
deriving DecidableEq, Repr

/-- Observable side effects of the state machine, in program order:
`scheduleRead` is a call to `schedule_next_read` (hence to
`connection::async_read`), `enteredSetup` / `enteredMain` /
`enteredDead` are the constructions of the respective state objects,
`repaint w h` is a `main_state::on_repaint` performed with a canvas of
size w by h, and `mainHandleData bytes` is an invocation of
`main_state::handle_data` with the given bytes. -/
inductive Effect
  | scheduleRead
  | enteredSetup
  | enteredMain
  | enteredDead
  | repaint (w h : Nat)
  | mainHandleData (bytes : List Nat)
deriving DecidableEq, Repr

/-- `main_state::handle_data` of src/client.cpp: returns `dead`
exactly when the data is empty and the connection is no longer alive,
and `main` otherwise.  The `alive` argument is the value of
`connection_.is_alive()` at the time of the call. -/
def mainStateHandleData (alive : Bool) (data : List Nat) : ConnState :=
  if data = [] ∧ alive = false then ConnState.dead else ConnState.main

/-- `client::impl::enter_state` of src/client.cpp, together with the
entry helpers `enter_setup_state`, `enter_main_state` and
`enter_dead_state` that it dispatches to.  The C++ records the old
state, assigns the new one, and runs the entry helper only when the
state changed; entering Dead returns early, every other path falls
through to `schedule_next_read()`.  `enter_main_state` constructs a
`main_state` (canvas 80 by 24, with a repaint from its constructor),
swaps the buffered Setup bytes out of `discarded_data_`, feeds them to
the new `main_state::handle_data`, and recursively calls `enter_state`
on the result; since the current state is then already Main, that
nested call cannot re-enter Main, so the recursion depth is at most
two, which the fuel argument makes structural.  The C++ `switch` has
no case for `init`, so entering `init` falls through to the
scheduling call. -/
def enterState : Nat → Bool → Impl → ConnState → Impl × List Effect
  | 0, _alive, c, ns => ({c with connState := ns}, [])
  | Nat.succ fuel, alive, c, ns =>
    let old := c.connState
    let c1 : Impl := {c with connState := ns}
    if ns = old then
      (c1, [Effect.scheduleRead])
    else
      match ns with
      | ConnState.setup =>
          ({c1 with canvas := none}, [Effect.enteredSetup, Effect.scheduleRead])
      | ConnState.main =>
          let c2 : Impl := {c1 with canvas := some (80, 24)}
          let buffered := c2.discarded
          let c3 : Impl := {c2 with discarded := []}
          let inner := enterState fuel alive c3 (mainStateHandleData alive buffered)
          (inner.fst,
            Effect.enteredMain :: Effect.repaint 80 24 ::
              Effect.mainHandleData buffered ::
                (inner.snd ++ [Effect.scheduleRead]))
      | ConnState.dead =>
          ({c1 with canvas := none}, [Effect.enteredDead])
      | ConnState.init =>
          (c1, [Effect.scheduleRead])

/-- The callback events delivered to `client::impl`.  `dataRead` is
the data continuation of `async_read`; `readComplete` is its
read-complete continuation; `termType` is the continuation given to
`async_get_terminal_type`; `winSize` is the `on_window_size_changed`
callback.  The `alive` fields carry the value the C++ would observe
from `connection_.is_alive()` during the callback. -/
inductive Event
  | dataRead (bytes : List Nat) (alive : Bool)
  | readComplete (alive : Bool)
  | termType (t : String) (alive : Bool)
  | winSize (w h : Nat)

/-- One callback delivery to `client::impl`, from src/client.cpp: the
data continuation calls `enter_state(state_->handle_data(data))`, the
read-complete continuation either calls `schedule_next_read` (alive)
or `enter_state(dead)`, the terminal-type continuation calls
`enter_state(state_->terminal_type(type))`, and the window-size
callback records the size into `window_width_` / `window_height_` and
calls `enter_state(state_->window_size_changed(w, h))`.  The virtual
dispatch on `state_` is resolved by the current `connState`; before
the constructor has entered Setup no callback can run, so `init`
leaves the state unchanged. -/
def stepEvent (c : Impl) : Event → Impl × List Effect
  | Event.dataRead bytes alive =>
    match c.connState with
    | ConnState.init => (c, [])
    | ConnState.setup =>
        enterState 2 alive {c with discarded := c.discarded ++ bytes} ConnState.setup
    | ConnState.main =>
        let r := enterState 2 alive c (mainStateHandleData alive bytes)
        (r.fst, Effect.mainHandleData bytes :: r.snd)
    | ConnState.dead =>
        enterState 2 alive c ConnState.dead
  | Event.readComplete alive =>
    if alive then (c, [Effect.scheduleRead])
    else
      match c.connState with
      | ConnState.init => (c, [])
      | _ => enterState 2 alive c ConnState.dead
  | Event.termType _t alive =>
    match c.connState with
    | ConnState.init => (c, [])
    | ConnState.setup => enterState 2 alive c ConnState.main
    | ConnState.main => enterState 2 alive c ConnState.main
    | ConnState.dead => enterState 2 alive c ConnState.dead
  | Event.winSize w h =>
    let c1 : Impl := {c with winW := w, winH := h}
    match c.connState with
    | ConnState.init => (c1, [])
    | ConnState.setup => enterState 2 true c1 ConnState.setup
    | ConnState.main =>
        let c2 : Impl := {c1 with canvas := some (w, h)}
        let r := enterState 2 true c2 ConnState.main
        (r.fst, Effect.repaint w h :: r.snd)
    | ConnState.dead => enterState 2 true c1 ConnState.dead

/-- The freshly constructed `client::impl`: all members at their
initialisers (`connection_state_{init}`, empty buffer, 80 by 24). -/
def initialImpl : Impl :=
  { connState := ConnState.init
    discarded := []
    winW := 80
    winH := 24
    canvas := none }

/-- The tail of the `client::impl` constructor:
`enter_state(connection_state::setup)`. -/
def constructedClient : Impl × List Effect :=
  enterState 2 true initialImpl ConnState.setup

/-- Folding a list of callback events over the state machine,
concatenating the effects in delivery order. -/
def runEvents (c : Impl) : List Event → Impl × List Effect
  | [] => (c, [])
  | e :: es =>
    let r := stepEvent c e
    let rest := runEvents r.fst es
    (rest.fst, r.snd ++ rest.snd)

/-- A measure placing the four states in the progression order
Init, Setup, Main, Dead of the specification. -/
def stateRank : ConnState → Nat
  | ConnState.init => 0
  | ConnState.setup => 1
  | ConnState.main => 2
  | ConnState.dead => 3

/-- The number of `main_state` constructions recorded in an effect
list. -/
def countEnteredMain : List Effect → Nat
  | [] => 0
  | Effect.enteredMain :: es => countEnteredMain es + 1
  | _ :: es => countEnteredMain es

/-- A client whose state machine currently sits in Main with an
empty Setup buffer, as it is after a completed negotiation. -/
def mainClient : Impl :=
  { connState := ConnState.main
    discarded := []
    winW := 80
    winH := 24
    canvas := some (80, 24) }

end Client

namespace Conn

/-- The terminal-type bookkeeping of `connection::impl` in
src/connection.cpp: the cached `terminal_type_` string (empty until a
report arrives) and the `terminal_type_requests_` vector of stored
continuations, modelled by identifiers in registration order. -/
structure ConnImpl where
  terminalType : String
  terminalTypeRequests : List Nat
deriving DecidableEq, Repr

/-- Observable effect of the terminal-type machinery: invoking a
stored continuation with a value. -/
inductive ConnEffect
  | fulfill (id : Nat) (value : String)
deriving DecidableEq, Repr

/-- `connection::async_get_terminal_type` of src/connection.cpp: the
continuation is pushed onto `terminal_type_requests_`; nothing else
happens. -/
def asyncGetTerminalType (c : ConnImpl) (id : Nat) : ConnImpl :=
  {c with terminalTypeRequests := c.terminalTypeRequests ++ [id]}

/-- `connection::impl::announce_terminal_type` of src/connection.cpp:
every stored continuation is invoked with the cached value, then the
vector is cleared. -/
def announceTerminalType (c : ConnImpl) : ConnImpl × List ConnEffect :=
  ({c with terminalTypeRequests := []},
   c.terminalTypeRequests.map (fun id => ConnEffect.fulfill id c.terminalType))

/-- `connection::impl::on_terminal_type_detected` of
src/connection.cpp: unconditionally assigns `terminal_type_` and
announces. -/
def onTerminalTypeDetected (c : ConnImpl) (t : String) : ConnImpl × List ConnEffect :=
  announceTerminalType {c with terminalType := t}

/-- The two events that touch the terminal-type bookkeeping: a call to
`async_get_terminal_type` and a report from the Terminal-Type
negotiator (`on_terminal_type` signal firing
`on_terminal_type_detected`). -/
inductive ConnEvent
  | register (id : Nat)
  | detect (t : String)

/-- One event applied to the connection bookkeeping. -/
def connStep (c : ConnImpl) : ConnEvent → ConnImpl × List ConnEffect
  | ConnEvent.register id => (asyncGetTerminalType c id, [])
  | ConnEvent.detect t => onTerminalTypeDetected c t

/-- Folding a list of events, concatenating continuation invocations
in order. -/
def connRun (c : ConnImpl) : List ConnEvent → ConnImpl × List ConnEffect
  | [] => (c, [])
  | e :: es =>
    let r := connStep c e
    let rest := connRun r.fst es
    (rest.fst, r.snd ++ rest.snd)

/-- A `connection::impl` as constructed: no cached type, no stored
continuations. -/
def connInit : ConnImpl := { terminalType := "", terminalTypeRequests := [] }

/-- `connection::impl::on_keepalive` and `schedule_keepalive` of
src/connection.cpp, run over a list of timer expiries.  Each entry of
the list carries the error code (as a Bool: `true` when the wait
reported an error) and `socket_->is_alive()` observed at that expiry.
`schedule_keepalive` arms the timer for 30 seconds ahead; on expiry,
`on_keepalive` emits a NOP command and reschedules exactly when the
error code is clear and the socket is alive, and otherwise does
nothing further, so later expiries never happen.  The result is the
list of times at which a NOP was written, counted from the moment the
timer was first armed. -/
def keepaliveEmissions : Nat → List (Bool × Bool) → List Nat
  | _t, [] => []
  | t, (error, alive) :: rest =>
    if error = false ∧ alive = true then
      (t + 30) :: keepaliveEmissions (t + 30) rest
    else []

/-- The five negotiators installed by the `connection::impl`
constructor. -/
inductive Negotiator
  | echo
  | suppressGA
  | naws
  | terminalType
  | mccp
deriving DecidableEq, Repr

/-- The actions performed by the `connection::impl` constructor of
src/connection.cpp, in program order. -/
inductive CtorAction
  | setActivatable (n : Negotiator)
  | connectWindowSizeCallback
  | connectTerminalTypeCallback
  | connectStateChangedCallback
  | install (n : Negotiator)
  | writeBeginCompression
  | createKeepaliveTimer
  | scheduleKeepalive
  | activate (n : Negotiator)
deriving DecidableEq, Repr

/-- The exact action sequence of the `connection::impl` constructor
body (src/connection.cpp lines 42 to 93). -/
def ctorTrace : List CtorAction :=
  [CtorAction.setActivatable Negotiator.echo,
   CtorAction.install Negotiator.echo,
   CtorAction.setActivatable Negotiator.suppressGA,
   CtorAction.install Negotiator.suppressGA,
   CtorAction.setActivatable Negotiator.naws,
   CtorAction.connectWindowSizeCallback,
   CtorAction.install Negotiator.naws,
   CtorAction.setActivatable Negotiator.terminalType,
   CtorAction.connectTerminalTypeCallback,
   CtorAction.connectStateChangedCallback,
   CtorAction.install Negotiator.terminalType,
   CtorAction.setActivatable Negotiator.mccp,
   CtorAction.writeBeginCompression,
   CtorAction.install Negotiator.mccp,
   CtorAction.createKeepaliveTimer,
   CtorAction.scheduleKeepalive,
   CtorAction.activate Negotiator.echo,
   CtorAction.activate Negotiator.suppressGA,
   CtorAction.activate Negotiator.naws,
   CtorAction.activate Negotiator.terminalType,
   CtorAction.activate Negotiator.mccp]

/-- Selects the installation actions of a constructor trace. -/
def isInstall : CtorAction → Bool
  | CtorAction.install _ => true
  | _ => false

/-- Selects the activation actions of a constructor trace. -/
def isActivate : CtorAction → Bool
  | CtorAction.activate _ => true
  | _ => false

end Conn

namespace App

/-- The bookkeeping of `application::impl` in src/application.cpp:
`pending_connections_` (connections mid-negotiation, identified by
stable identifiers) and `pending_sizes_` (a map from connection
identity to an interim width and height, modelled as an association
list whose keys are unique). -/
structure AppState where
  pendingConnections : List Nat
  pendingSizes : List (Nat × (Nat × Nat))
deriving DecidableEq, Repr

/-- `pending_sizes_[c] = (w, h)`: map insertion or update. -/
def sizesInsert (m : List (Nat × (Nat × Nat))) (c : Nat) (s : Nat × Nat) :
    List (Nat × (Nat × Nat)) :=
  (c, s) :: m.filter (fun p => p.fst ≠ c)

/-- `pending_sizes_.erase(c)`: map erasure by key. -/
def sizesErase (m : List (Nat × (Nat × Nat))) (c : Nat) :
    List (Nat × (Nat × Nat)) :=
  m.filter (fun p => p.fst ≠ c)

/-- The callbacks of `application::impl`.  `accept` is `on_accept`;
`terminalType` is `on_terminal_type`; `windowSize` is
`on_window_size_changed`; `death` is `on_connection_death`. -/
inductive AppEvent
  | accept (c : Nat)
  | terminalType (c : Nat)
  | windowSize (c : Nat) (w h : Nat)
  | death (c : Nat)

/-- One callback of `application::impl`, from src/application.cpp.
The terminal-type, window-size and death callbacks each begin by
locking a weak pointer to the connection.  `pending_connections_`
holds the only owning reference to a connection (the client creation
in `on_terminal_type` is commented out in the source, and all
callbacks capture weak pointers), and callbacks for one application
are serialized, so at the start of a callback the lock succeeds
exactly when the connection is still in `pending_connections_`; the
model therefore uses membership in `pendingConnections` as the lock
test.  `on_terminal_type` additionally re-finds the connection in
`pending_connections_` and silently returns when it is absent, then
erases that entry (first occurrence) and erases any `pending_sizes_`
entry.  `on_window_size_changed` stores the size with no pending
check beyond the lock.  `on_connection_death` removes the connection
from both containers with the remove-erase idiom. -/
def appStep (st : AppState) : AppEvent → AppState
  | AppEvent.accept c =>
    {st with pendingConnections := st.pendingConnections ++ [c]}
  | AppEvent.terminalType c =>
    if c ∈ st.pendingConnections then
      { pendingConnections := st.pendingConnections.erase c
        pendingSizes := sizesErase st.pendingSizes c }
    else st
  | AppEvent.windowSize c w h =>
    if c ∈ st.pendingConnections then
      {st with pendingSizes := sizesInsert st.pendingSizes c (w, h)}
    else st
  | AppEvent.death c =>
    if c ∈ st.pendingConnections then
      { pendingConnections := st.pendingConnections.filter (fun x => x ≠ c)
        pendingSizes := sizesErase st.pendingSizes c }
    else st

/-- Folding a list of callbacks over the application bookkeeping. -/
def appRun (st : AppState) : List AppEvent → AppState
  | [] => st
  | e :: es => appRun (appStep st e) es

/-- A freshly constructed `application::impl`: both containers
empty. -/
def appInit : AppState := { pendingConnections := [], pendingSizes := [] }

/-- The invariant of Claim C6: every connection with a pending size is
also a pending connection. -/
def SizesSub (st : AppState) : Prop :=
  ∀ p ∈ st.pendingSizes, p.fst ∈ st.pendingConnections

end App

namespace Client

/-- Every callback either leaves the state unchanged, or moves Setup
to Main or Dead, or moves Main to Dead; these are the only state
changes `stepEvent` can make. -/
lemma stepEvent_connState (c : Impl) (e : Event) :
    (stepEvent c e).fst.connState = c.connState ∨
    (c.connState = ConnState.setup ∧
      ((stepEvent c e).fst.connState = ConnState.main ∨
       (stepEvent c e).fst.connState = ConnState.dead)) ∨
    (c.connState = ConnState.main ∧
      (stepEvent c e).fst.connState = ConnState.dead) := by
  obtain ⟨cs, d, w, h, cv⟩ := c
  cases e with
  | dataRead bytes alive =>
    cases cs with
    | init => left; rfl
    | setup => left; simp [stepEvent, enterState]
    | main =>
      by_cases hb : bytes = [] ∧ alive = false
      · right; right
        exact ⟨rfl, by simp [stepEvent, mainStateHandleData, hb, enterState]⟩
      · left; simp [stepEvent, mainStateHandleData, hb, enterState]
    | dead => left; simp [stepEvent, enterState]
  | readComplete alive =>
    cases alive with
    | true => left; simp [stepEvent]
    | false =>
      cases cs with
      | init => left; simp [stepEvent]
      | setup =>
        right; left
        exact ⟨rfl, Or.inr (by simp [stepEvent, enterState])⟩
      | main =>
        right; right
        exact ⟨rfl, by simp [stepEvent, enterState]⟩
      | dead => left; simp [stepEvent, enterState]
  | termType t alive =>
    cases cs with
    | init => left; rfl
    | setup =>
      right; left
      refine ⟨rfl, ?_⟩
      by_cases hb : d = [] ∧ alive = false
      · right; simp [stepEvent, enterState, mainStateHandleData, hb]
      · left; simp [stepEvent, enterState, mainStateHandleData, hb]
    | main => left; simp [stepEvent, enterState]
    | dead => left; simp [stepEvent, enterState]
  | winSize w2 h2 =>
    cases cs with
    | init => left; rfl
    | setup => left; simp [stepEvent, enterState]
    | main => left; simp [stepEvent, enterState]
    | dead => left; simp [stepEvent, enterState]

/-- The state machine only moves forward along Init, Setup, Main,
Dead. -/
lemma stepEvent_rank_mono (c : Impl) (e : Event) :
    stateRank c.connState ≤ stateRank (stepEvent c e).fst.connState := by
  rcases stepEvent_connState c e with h | ⟨h1, h2 | h2⟩ | ⟨h1, h2⟩
  · rw [h]
  · rw [h1, h2]; decide
  · rw [h1, h2]; decide
  · rw [h1, h2]; decide

/-- Dead is absorbing for every callback. -/
lemma stepEvent_dead_absorbing (c : Impl) (e : Event)
    (h : c.connState = ConnState.dead) :
    (stepEvent c e).fst.connState = ConnState.dead := by
  rcases stepEvent_connState c e with h2 | ⟨h1, _⟩ | ⟨h1, _⟩
  · rw [h2, h]
  · rw [h] at h1; simp at h1
  · rw [h] at h1; simp at h1

/-- A state of positive rank is Setup, Main or Dead. -/
lemma rank_pos_mem {x : ConnState} (h : 1 ≤ stateRank x) :
    x ∈ [ConnState.setup, ConnState.main, ConnState.dead] := by
  cases x with
  | init => simp [stateRank] at h
  | setup => simp
  | main => simp
  | dead => simp

/-- Runs started in a state of positive rank stay at positive rank. -/
lemma runEvents_rank_pos (es : List Event) :
    ∀ c : Impl, 1 ≤ stateRank c.connState →
      1 ≤ stateRank (runEvents c es).fst.connState := by
  induction es with
  | nil => intro c h; simpa [runEvents] using h
  | cons e es ih =>
    intro c h
    simp only [runEvents]
    exact ih _ (le_trans h (stepEvent_rank_mono c e))

/-- Stepping from a state other than Setup never reaches Setup. -/
lemma stepEvent_not_setup (c : Impl) (e : Event)
    (h : c.connState ≠ ConnState.setup) :
    (stepEvent c e).fst.connState ≠ ConnState.setup := by
  rcases stepEvent_connState c e with h2 | ⟨h1, _⟩ | ⟨h1, h2⟩
  · rw [h2]; exact h
  · exact absurd h1 h
  · rw [h2]; simp

/-- Counting `enteredMain` distributes over concatenation. -/
lemma countEnteredMain_append (a b : List Effect) :
    countEnteredMain (a ++ b) = countEnteredMain a + countEnteredMain b := by
  induction a with
  | nil => simp [countEnteredMain]
  | cons x xs ih =>
    cases x <;> simp [countEnteredMain, ih]
    omega

/-- A step taken outside Setup constructs no `main_state`. -/
lemma stepEvent_countEnteredMain_zero (c : Impl) (e : Event)
    (h : c.connState ≠ ConnState.setup) :
    countEnteredMain (stepEvent c e).snd = 0 := by
  obtain ⟨cs, d, w, ht, cv⟩ := c
  cases cs with
  | setup => exact absurd rfl h
  | init =>
    cases e with
    | dataRead bytes alive => rfl
    | readComplete alive => cases alive <;> rfl
    | termType t alive => rfl
    | winSize w2 h2 => rfl
  | main =>
    cases e with
    | dataRead bytes alive =>
      by_cases hb : bytes = [] ∧ alive = false <;>
        simp [stepEvent, mainStateHandleData, hb, enterState, countEnteredMain]
    | readComplete alive =>
      cases alive <;> simp [stepEvent, enterState, countEnteredMain]
    | termType t alive => simp [stepEvent, enterState, countEnteredMain]
    | winSize w2 h2 => simp [stepEvent, enterState, countEnteredMain]
  | dead =>
    cases e with
    | dataRead bytes alive => simp [stepEvent, enterState, countEnteredMain]
    | readComplete alive =>
      cases alive <;> simp [stepEvent, enterState, countEnteredMain]
    | termType t alive => simp [stepEvent, enterState, countEnteredMain]
    | winSize w2 h2 => simp [stepEvent, enterState, countEnteredMain]

/-- A step taken in Setup either stays in Setup constructing no
`main_state`, or leaves Setup constructing at most one. -/
lemma stepEvent_setup_cases (c : Impl) (e : Event)
    (h : c.connState = ConnState.setup) :
    ((stepEvent c e).fst.connState = ConnState.setup ∧
      countEnteredMain (stepEvent c e).snd = 0) ∨
    ((stepEvent c e).fst.connState ≠ ConnState.setup ∧
      countEnteredMain (stepEvent c e).snd ≤ 1) := by
  obtain ⟨cs, d, w, ht, cv⟩ := c
  have hcs : cs = ConnState.setup := h
  subst hcs
  cases e with
  | dataRead bytes alive => left; simp [stepEvent, enterState, countEnteredMain]
  | readComplete alive =>
    cases alive with
    | true => left; simp [stepEvent, countEnteredMain]
    | false => right; simp [stepEvent, enterState, countEnteredMain]
  | termType t alive =>
    right
    by_cases hb : d = [] ∧ alive = false <;>
      simp [stepEvent, enterState, mainStateHandleData, hb, countEnteredMain]
  | winSize w2 h2 => left; simp [stepEvent, enterState, countEnteredMain]

/-- Runs started outside Setup construct no `main_state`. -/
lemma runEvents_countEnteredMain_zero (es : List Event) :
    ∀ c : Impl, c.connState ≠ ConnState.setup →
      countEnteredMain (runEvents c es).snd = 0 := by
  induction es with
  | nil => intro c _; simp [runEvents, countEnteredMain]
  | cons e es ih =>
    intro c h
    simp only [runEvents, countEnteredMain_append]
    rw [stepEvent_countEnteredMain_zero c e h, ih _ (stepEvent_not_setup c e h)]

/-- Runs started in Setup construct at most one `main_state`. -/
lemma runEvents_countEnteredMain_le_one (es : List Event) :
    ∀ c : Impl, c.connState = ConnState.setup →
      countEnteredMain (runEvents c es).snd ≤ 1 := by
  induction es with
  | nil => intro c _; simp [runEvents, countEnteredMain]
  | cons e es ih =>
    intro c h
    simp only [runEvents, countEnteredMain_append]
    rcases stepEvent_setup_cases c e h with ⟨h1, h2⟩ | ⟨h1, h2⟩
    · rw [h2]; simpa using ih _ h1
    · have h3 := runEvents_countEnteredMain_zero es _ h1
      omega

/-- An effect list containing `enteredMain` has positive count. -/
lemma countEnteredMain_pos {l : List Effect} (h : Effect.enteredMain ∈ l) :
    1 ≤ countEnteredMain l := by
  induction l with
  | nil => simp at h
  | cons x xs ih =>
    rcases List.mem_cons.mp h with h1 | h1
    · rw [← h1]; simp [countEnteredMain]
    · have h2 := ih h1
      cases x <;> simp [countEnteredMain] <;> omega

/-- Any step whose effects construct a `main_state` leaves the Setup
buffer empty: `enter_main_state` swaps the buffer out before the
replay. -/
lemma stepEvent_enteredMain_mem (c : Impl) (e : Event)
    (h : Effect.enteredMain ∈ (stepEvent c e).snd) :
    (stepEvent c e).fst.discarded = [] := by
  by_cases hc : c.connState = ConnState.setup
  · obtain ⟨cs, d, w, ht, cv⟩ := c
    have hcs : cs = ConnState.setup := hc
    subst hcs
    cases e with
    | dataRead bytes alive => simp [stepEvent, enterState] at h
    | readComplete alive =>
      cases alive with
      | true => simp [stepEvent] at h
      | false => simp [stepEvent, enterState] at h
    | termType t alive =>
      by_cases hb : d = [] ∧ alive = false <;>
        simp [stepEvent, enterState, mainStateHandleData, hb]
    | winSize w2 h2 => simp [stepEvent, enterState] at h
  · have h0 := stepEvent_countEnteredMain_zero c e hc
    have h1 := countEnteredMain_pos h
    omega

/-- Claim C1: for the client session state machine, construction moves
Init to Setup; every callback moves the state only forward along the
order Init, Setup, Main, Dead, so from Init the only reachable states
are Setup, then Main, then Dead; and Dead is absorbing: every event
(payload data, read completion, terminal-type report, window-size
change) delivered while the current state is Dead results in Dead. -/
theorem client_states_forward_and_dead_absorbing :
    constructedClient.fst.connState = ConnState.setup ∧
    (∀ (c : Impl) (e : Event),
      stateRank c.connState ≤ stateRank (stepEvent c e).fst.connState) ∧
    (∀ es : List Event,
      (runEvents constructedClient.fst es).fst.connState ∈
        [ConnState.setup, ConnState.main, ConnState.dead]) ∧
    (∀ (c : Impl) (e : Event), c.connState = ConnState.dead →
      (stepEvent c e).fst.connState = ConnState.dead) :=
  ⟨rfl,
   stepEvent_rank_mono,
   fun es => rank_pos_mem (runEvents_rank_pos es constructedClient.fst (by decide)),
   stepEvent_dead_absorbing⟩

/-- Witness for Claim C1: a window-size event delivered in Dead leaves
the state Dead. -/
theorem client_dead_absorbing_witness :
    (stepEvent
      { connState := ConnState.dead, discarded := [], winW := 80, winH := 24,
        canvas := none }
      (Event.winSize 100 40)).fst.connState = ConnState.dead :=
  client_states_forward_and_dead_absorbing.2.2.2 _ _ rfl

/-- Claim C2 evidence (code bug): when the transport dies mid-read and
the data continuation delivers zero bytes in Main, the machine enters
Dead and correctly schedules no read at that transition; but the
read-complete continuation of the same read then calls
`enter_state(dead)` while the state is already Dead, and because
`enter_state` only skips `schedule_next_read` when the state changed,
this Dead-to-Dead re-entry schedules another asynchronous read, so the
read loop does not end.  Moreover the Setup-to-Main transition
schedules two reads (one from the nested `enter_state` after the
replay, one from the outer fall-through), not exactly one. -/
theorem dead_reentry_schedules_read :
    (stepEvent mainClient (Event.dataRead [] false)).fst.connState =
      ConnState.dead ∧
    (stepEvent mainClient (Event.dataRead [] false)).snd =
      [Effect.mainHandleData [], Effect.enteredDead] ∧
    (stepEvent (stepEvent mainClient (Event.dataRead [] false)).fst
        (Event.readComplete false)).snd = [Effect.scheduleRead] ∧
    (stepEvent
      { connState := ConnState.setup, discarded := [5], winW := 80, winH := 24,
        canvas := none }
      (Event.termType "x" true)).snd =
      [Effect.enteredMain, Effect.repaint 80 24, Effect.mainHandleData [5],
       Effect.scheduleRead, Effect.scheduleRead] :=
  ⟨rfl, rfl, rfl, rfl⟩

/-- Claim C3 evidence (code bug): after a window-size report of 100 by
40 during Setup, the recorded `window_width_` and `window_height_` are
indeed 100 and 40, but the first repaint performed on entering Main
uses the default 80 by 24 canvas hard-coded in the `main_state`
constructor, and no repaint at 100 by 40 ever occurs in the
transition; the recorded size is never passed to the new
`main_state`. -/
theorem first_repaint_uses_default_size :
    (runEvents constructedClient.fst
      [Event.winSize 100 40, Event.termType "xterm" true]).fst.winW = 100 ∧
    (runEvents constructedClient.fst
      [Event.winSize 100 40, Event.termType "xterm" true]).fst.winH = 40 ∧
    (runEvents constructedClient.fst
      [Event.winSize 100 40, Event.termType "xterm" true]).snd =
      [Effect.scheduleRead, Effect.enteredMain, Effect.repaint 80 24,
       Effect.mainHandleData [], Effect.scheduleRead, Effect.scheduleRead] ∧
    Effect.repaint 100 40 ∉
      (runEvents constructedClient.fst
        [Event.winSize 100 40, Event.termType "xterm" true]).snd :=
  ⟨rfl, rfl, rfl, by decide⟩

/-- Claim C5: every payload byte sequence received while in Setup is
appended verbatim to the buffer `discarded_data_` (with no state
change and exactly the read reschedule as effect), and the transition
from Setup to Main hands the entire buffered sequence, in order and in
one piece, to the fresh main state data handler (effect position
two), before every scheduling of a further read (all `scheduleRead`
effects occur later in the list), leaving the buffer empty. -/
theorem setup_bytes_buffered_and_replayed (c : Impl) (bytes : List Nat)
    (alive alive2 : Bool) (t : String) (h : c.connState = ConnState.setup) :
    ((stepEvent c (Event.dataRead bytes alive)).fst.discarded =
        c.discarded ++ bytes ∧
      (stepEvent c (Event.dataRead bytes alive)).fst.connState =
        ConnState.setup ∧
      (stepEvent c (Event.dataRead bytes alive)).snd =
        [Effect.scheduleRead]) ∧
    ((stepEvent c (Event.termType t alive2)).fst.discarded = [] ∧
      (stepEvent c (Event.termType t alive2)).snd =
        Effect.enteredMain :: Effect.repaint 80 24 ::
          Effect.mainHandleData c.discarded ::
            (if c.discarded = [] ∧ alive2 = false
             then [Effect.enteredDead, Effect.scheduleRead]
             else [Effect.scheduleRead, Effect.scheduleRead])) := by
  obtain ⟨cs, d, w, ht, cv⟩ := c
  have hcs : cs = ConnState.setup := h
  subst hcs
  refine ⟨⟨?_, ?_, ?_⟩, ?_, ?_⟩
  · simp [stepEvent, enterState]
  · simp [stepEvent, enterState]
  · simp [stepEvent, enterState]
  · by_cases hb : d = [] ∧ alive2 = false <;>
      simp [stepEvent, enterState, mainStateHandleData, hb]
  · by_cases hb : d = [] ∧ alive2 = false <;>
      simp [stepEvent, enterState, mainStateHandleData, hb]

/-- Witness for Claim C5: a client in Setup holding byte 7 appends a
read of bytes 8, 9 verbatim, and on the terminal-type report replays
the buffer to the new main state before the read reschedules. -/
theorem setup_replay_witness :
    (stepEvent
      { connState := ConnState.setup, discarded := [7], winW := 80, winH := 24,
        canvas := none }
      (Event.dataRead [8, 9] true)).fst.discarded = [7, 8, 9] ∧
    (stepEvent
      { connState := ConnState.setup, discarded := [7], winW := 80, winH := 24,
        canvas := none }
      (Event.termType "xterm" true)).snd =
      [Effect.enteredMain, Effect.repaint 80 24, Effect.mainHandleData [7],
       Effect.scheduleRead, Effect.scheduleRead] := by
  have h := setup_bytes_buffered_and_replayed
    { connState := ConnState.setup, discarded := [7], winW := 80, winH := 24,
      canvas := none }
    [8, 9] true true "xterm" rfl
  exact ⟨h.1.1.trans (by decide), h.2.2.trans (by decide)⟩

/-- Claim C10: the bytes buffered during Setup are delivered at most
once.  Any run of the state machine from the freshly constructed
client constructs at most one `main_state` (so the replay performed by
`enter_main_state` happens at most once), and any step that constructs
a `main_state` leaves the Setup buffer empty, because
`enter_main_state` swaps `discarded_data_` out as it replays it; hence
no later event or transition can replay the same buffered bytes a
second time. -/
theorem setup_buffer_delivered_at_most_once (es : List Event) (c : Impl)
    (e : Event) :
    countEnteredMain (runEvents constructedClient.fst es).snd ≤ 1 ∧
    (Effect.enteredMain ∈ (stepEvent c e).snd →
      (stepEvent c e).fst.discarded = []) :=
  ⟨runEvents_countEnteredMain_le_one es constructedClient.fst rfl,
   fun h => stepEvent_enteredMain_mem c e h⟩

/-- Witness for Claim C10: the Setup-to-Main transition of a client
holding buffered bytes 1, 2 constructs a `main_state` and leaves the
buffer empty. -/
theorem setup_buffer_once_witness :
    (stepEvent
      { connState := ConnState.setup, discarded := [1, 2], winW := 80,
        winH := 24, canvas := none }
      (Event.termType "ansi" true)).fst.discarded = [] :=
  (setup_buffer_delivered_at_most_once []
    { connState := ConnState.setup, discarded := [1, 2], winW := 80,
      winH := 24, canvas := none }
    (Event.termType "ansi" true)).2 (by decide)

end Client

namespace Conn

/-- Claim C4 counterexample: with the terminal type already cached as
xterm, registering a continuation produces no invocation at all; the
continuation merely joins the queue, so it is not fulfilled
immediately. -/
theorem late_request_not_fulfilled_immediately :
    (connRun connInit
      [ConnEvent.detect "xterm", ConnEvent.register 0]).fst.terminalType =
      "xterm" ∧
    (connRun connInit [ConnEvent.detect "xterm", ConnEvent.register 0]).snd =
      [] ∧
    (connRun connInit
        [ConnEvent.detect "xterm",
         ConnEvent.register 0]).fst.terminalTypeRequests = [0] :=
  ⟨rfl, rfl, rfl⟩

/-- Claim C4 as amended: every continuation passed to
`async_get_terminal_type` is queued with no immediate invocation, even
when the type is already cached; each terminal-type report invokes
exactly the queued continuations, each exactly once, with the value of
that report, and clears the queue. -/
theorem terminal_type_requests_queued_and_flushed (c : ConnImpl) (i : Nat)
    (t : String) :
    connStep c (ConnEvent.register i) =
      ({c with terminalTypeRequests := c.terminalTypeRequests ++ [i]}, []) ∧
    connStep c (ConnEvent.detect t) =
      ({ terminalType := t, terminalTypeRequests := [] },
       c.terminalTypeRequests.map (fun j => ConnEffect.fulfill j t)) :=
  ⟨rfl, rfl⟩

/-- Claim C9 counterexample: the stored terminal type is xterm after a
first report, yet a second report of vt100 overwrites it, so the value
is not immutable once set. -/
theorem second_report_overwrites_terminal_type :
    (connRun connInit [ConnEvent.detect "xterm"]).fst.terminalType =
      "xterm" ∧
    (connRun connInit
      [ConnEvent.detect "xterm", ConnEvent.detect "vt100"]).fst.terminalType =
      "vt100" ∧
    ("xterm" : String) ≠ "vt100" :=
  ⟨rfl, rfl, by decide⟩

/-- Claim C9 as amended: the terminal type starts unset (empty), is
never changed by a registration, and each report from the remote
assigns the stored value to the reported string, so the stored value
is the most recent report rather than an immutable first one. -/
theorem terminal_type_tracks_latest_report (c : ConnImpl) (t : String)
    (i : Nat) :
    connInit.terminalType = "" ∧
    (connStep c (ConnEvent.register i)).fst.terminalType = c.terminalType ∧
    (connStep c (ConnEvent.detect t)).fst.terminalType = t :=
  ⟨rfl, rfl, rfl⟩

/-- Claim C7: while every timer expiry observes no error and a live
transport, the keepalive loop emits one no-op command per expiry, each
30 time units after the previous arming, at times 30, 60, 90 and so
on; and as soon as one expiry observes an error or a dead transport,
no keepalive is emitted then or ever after, regardless of later
expiries. -/
theorem keepalive_interval_and_stops (t n : Nat) (error alive : Bool)
    (rest : List (Bool × Bool)) (h : error = true ∨ alive = false) :
    keepaliveEmissions t (List.replicate n (false, true)) =
      List.range' (t + 30) n 30 ∧
    keepaliveEmissions t ((error, alive) :: rest) = [] := by
  constructor
  · induction n generalizing t with
    | zero => simp [keepaliveEmissions]
    | succ n ih =>
      simp [List.replicate_succ, keepaliveEmissions, List.range', ih]
  · rcases h with h | h <;> simp [keepaliveEmissions, h]

/-- Witness for Claim C7: two healthy expiries emit at 30 and 60; an
errored expiry emits nothing even though a healthy one follows. -/
theorem keepalive_witness :
    keepaliveEmissions 0 (List.replicate 2 (false, true)) = [30, 60] ∧
    keepaliveEmissions 0 ((true, true) :: [(false, true)]) = [] :=
  ⟨(keepalive_interval_and_stops 0 2 true true [(false, true)]
      (Or.inl rfl)).1.trans (by decide),
   (keepalive_interval_and_stops 0 2 true true [(false, true)]
      (Or.inl rfl)).2⟩

/-- Claim C8: the `connection::impl` constructor installs the five
negotiators in the Protocol Session in the fixed order Echo,
Suppress-Go-Ahead, NAWS, Terminal-Type, Compression, and issues the
five activation requests in that same fixed order, each activation
after every installation. -/
theorem negotiators_installed_and_activated_in_order :
    ctorTrace.filter isInstall =
      [CtorAction.install Negotiator.echo,
       CtorAction.install Negotiator.suppressGA,
       CtorAction.install Negotiator.naws,
       CtorAction.install Negotiator.terminalType,
       CtorAction.install Negotiator.mccp] ∧
    ctorTrace.filter isActivate =
      [CtorAction.activate Negotiator.echo,
       CtorAction.activate Negotiator.suppressGA,
       CtorAction.activate Negotiator.naws,
       CtorAction.activate Negotiator.terminalType,
       CtorAction.activate Negotiator.mccp] ∧
    ctorTrace =
      (ctorTrace.takeWhile (fun a => !(isActivate a))) ++
        ctorTrace.filter isActivate :=
  ⟨rfl, rfl, rfl⟩

end Conn

namespace App

/-- Every application callback preserves the containment of the
pending-sizes keys in the pending connections. -/
lemma appStep_preserves_sizesSub (st : AppState) (e : AppEvent)
    (h : SizesSub st) : SizesSub (appStep st e) := by
  cases e with
  | accept c =>
    intro p hp
    exact List.mem_append_left _ (h p hp)
  | terminalType c =>
    by_cases hc : c ∈ st.pendingConnections
    · intro p hp
      simp only [appStep, hc, if_pos] at hp ⊢
      rcases List.mem_filter.mp hp with ⟨hp1, hp2⟩
      exact (List.mem_erase_of_ne (by simpa using hp2)).mpr (h p hp1)
    · simpa [appStep, hc] using h
  | windowSize c w hh =>
    by_cases hc : c ∈ st.pendingConnections
    · intro p hp
      simp only [appStep, hc, if_pos, sizesInsert] at hp ⊢
      rcases List.mem_cons.mp hp with hp1 | hp1
      · rw [hp1]; exact hc
      · exact h p (List.mem_filter.mp hp1).1
    · simpa [appStep, hc] using h
  | death c =>
    by_cases hc : c ∈ st.pendingConnections
    · intro p hp
      simp only [appStep, hc, if_pos, sizesErase] at hp ⊢
      rcases List.mem_filter.mp hp with ⟨hp1, hp2⟩
      exact List.mem_filter.mpr ⟨h p hp1, hp2⟩
    · simpa [appStep, hc] using h

/-- The containment invariant is preserved by whole runs. -/
lemma appRun_sizesSub (es : List AppEvent) :
    ∀ st : AppState, SizesSub st → SizesSub (appRun st es) := by
  induction es with
  | nil => intro st h; simpa [appRun] using h
  | cons e es ih =>
    intro st h
    exact ih _ (appStep_preserves_sizesSub st e h)

/-- A terminal-type or window-size report for a connection that is no
longer pending leaves the bookkeeping unchanged. -/
lemma appStep_stray_noop (st : AppState) (c w h : Nat)
    (hc : c ∉ st.pendingConnections) :
    appStep st (AppEvent.terminalType c) = st ∧
    appStep st (AppEvent.windowSize c w h) = st := by
  constructor <;> simp [appStep, hc]

/-- Claim C6: after any sequence of accept, terminal-type,
window-size and death callbacks from the initial state, every
connection present in the pending-sizes map is also present in the
pending connections; and a delayed terminal-type or window-size report
for a connection no longer tracked as pending is a silent no-op. -/
theorem pending_sizes_subset_pending_connections (es : List AppEvent)
    (c w h : Nat) :
    (∀ p ∈ (appRun appInit es).pendingSizes,
      p.fst ∈ (appRun appInit es).pendingConnections) ∧
    (c ∉ (appRun appInit es).pendingConnections →
      appStep (appRun appInit es) (AppEvent.terminalType c) =
        appRun appInit es ∧
      appStep (appRun appInit es) (AppEvent.windowSize c w h) =
        appRun appInit es) :=
  ⟨appRun_sizesSub es appInit (by intro p hp; simp [appInit] at hp),
   fun hc => appStep_stray_noop (appRun appInit es) c w h hc⟩

/-- Witness for Claim C6: after connection 1 is accepted, reports a
size, and completes negotiation, it is no longer pending, and a stray
late terminal-type or size report for it changes nothing. -/
theorem pending_sizes_witness :
    appStep
      (appRun appInit
        [AppEvent.accept 1, AppEvent.windowSize 1 100 40,
         AppEvent.terminalType 1])
      (AppEvent.terminalType 1) =
      appRun appInit
        [AppEvent.accept 1, AppEvent.windowSize 1 100 40,
         AppEvent.terminalType 1] ∧
    appStep
      (appRun appInit
        [AppEvent.accept 1, AppEvent.windowSize 1 100 40,
         AppEvent.terminalType 1])
      (AppEvent.windowSize 1 9 9) =
      appRun appInit
        [AppEvent.accept 1, AppEvent.windowSize 1 100 40,
         AppEvent.terminalType 1] :=
  (pending_sizes_subset_pending_connections
    [AppEvent.accept 1, AppEvent.windowSize 1 100 40, AppEvent.terminalType 1]
    1 9 9).2 (by decide)

end App
